import Mathlib

/-!
Shallow embedding of the socket-based JSON-RPC message channel layer:
`WebSocketMessageReader` / `WebSocketMessageWriter`
(packages/core/src/common/messaging/socket-message-handlers.ts),
the `createConnection` forwarding/close-lifecycle machinery, and the
plugin-host `PluginConnection` / `PluginWebSocketChannel` adapter.

The embedding is event-trace based: each handler is a function from the
object's state (and the incoming event) to the updated state together with
the list of observable emissions (listener-callback invocations, fired
error events, fired close events) produced synchronously by that handler,
mirroring the single-threaded callback model of the source.

`JSON.parse` is modelled as an arbitrary total decode function
`parse : String → J`; JS truthiness of the buffered-event fields
(`event.message`, `event.error`) is modelled explicitly.
-/

namespace SocketMessaging

/-- Reader lifecycle state: `'initial' | 'listening' | 'closed'`. -/
inductive RState
  | initial
  | listening
  | closed
deriving DecidableEq, Repr

/-- A JS `unknown` error value. `closeErr` is the `Error` object synthesized
in the socket `onClose` handler (`{ name: '' + code, message: ... }`), which
is always truthy; `raw` is an arbitrary error delivered via `socket.onError`,
carrying its own JS truthiness. -/
inductive ErrVal
  | raw (truthy : Bool) (id : Nat)
  | closeErr (name : String) (message : String)
deriving DecidableEq, Repr

/-- JS truthiness of an error value (an `Error` object is truthy). -/
def ErrVal.isTruthy : ErrVal → Bool
  | .raw t _ => t
  | .closeErr _ _ => true

/-- One entry of the reader's pending-event queue
`events: { message?: string, error?: unknown }[]`:
`{ message }`, `{ error }` or the close marker `{}`. -/
inductive BufEvent
  | msg (s : String)
  | err (e : ErrVal)
  | closeMark
deriving DecidableEq, Repr

/-- An observable emission of the reader: an invocation of the stored
`callback` (with the decoded data), a fired error event
(`super.fireError`), or a fired close event (`super.fireClose`).
Callbacks are identified by `Nat` ids; the `Option Nat` records the
`this.callback` field at the moment of invocation. -/
inductive Emit (J : Type)
  | message (cb : Option Nat) (data : J)
  | error (e : ErrVal)
  | close
deriving DecidableEq, Repr

/-- State of a `WebSocketMessageReader`: lifecycle state, the stored
listener callback (by id), and the pending-event queue (most recent
event first, since arrivals use `events.splice(0, 0, ...)`). -/
structure WebSocketMessageReader where
  state : RState
  callback : Option Nat
  events : List BufEvent
deriving DecidableEq, Repr

/-- A freshly constructed reader: `state = 'initial'`, no callback, empty
pending queue. -/
def initialReader : WebSocketMessageReader :=
  { state := .initial, callback := none, events := [] }

/-- `readMessage(message)`: buffer at the front while `'initial'`; decode
and invoke the stored callback while `'listening'`; drop when `'closed'`. -/
def WebSocketMessageReader.readMessage {J : Type} (parse : String → J)
    (st : WebSocketMessageReader) (message : String) :
    WebSocketMessageReader × List (Emit J) :=
  match st.state with
  | .initial => ({ st with events := .msg message :: st.events }, [])
  | .listening => (st, [Emit.message st.callback (parse message)])
  | .closed => (st, [])

/-- `fireError(error)`: buffer at the front while `'initial'`; fire the
error event while `'listening'`; drop when `'closed'`. -/
def WebSocketMessageReader.fireError {J : Type}
    (st : WebSocketMessageReader) (e : ErrVal) :
    WebSocketMessageReader × List (Emit J) :=
  match st.state with
  | .initial => ({ st with events := .err e :: st.events }, [])
  | .listening => (st, [Emit.error e])
  | .closed => (st, [])

/-- `fireClose()`: buffer a close marker while `'initial'`; fire the close
event while `'listening'`; in every case the state is then set to
`'closed'` unconditionally. -/
def WebSocketMessageReader.fireClose {J : Type}
    (st : WebSocketMessageReader) :
    WebSocketMessageReader × List (Emit J) :=
  match st.state with
  | .initial => ({ st with events := .closeMark :: st.events, state := .closed }, [])
  | .listening => ({ st with state := .closed }, [Emit.close])
  | .closed => ({ st with state := .closed }, [])

/-- The replay dispatch of one popped buffered event, following the JS
truthiness tests `if (event.message) ... else if (event.error) ... else
fireClose()`: an empty-string message and a falsy error value both fall
through to the close path. -/
def WebSocketMessageReader.dispatchBuffered {J : Type} (parse : String → J)
    (st : WebSocketMessageReader) (e : BufEvent) :
    WebSocketMessageReader × List (Emit J) :=
  match e with
  | .msg s => if s = "" then st.fireClose else st.readMessage parse s
  | .err v => if v.isTruthy then st.fireError v else st.fireClose
  | .closeMark => st.fireClose

/-- The replay loop of `listen`: pop events from the end of the queue (the
oldest arrival) one at a time and dispatch each. During the drain the state
is never `'initial'`, so dispatching never re-buffers; the queue is
represented by the snapshot list passed in pop order. -/
def WebSocketMessageReader.drainEvents {J : Type} (parse : String → J)
    (st : WebSocketMessageReader) :
    List BufEvent → WebSocketMessageReader × List (Emit J)
  | [] => (st, [])
  | e :: rest =>
    let p1 := st.dispatchBuffered parse e
    let p2 := p1.1.drainEvents parse rest
    (p2.1, p1.2 ++ p2.2)

/-- `listen(callback)`: only when `'initial'`, transition to `'listening'`,
store the callback, and drain the pending queue popping from the end
(hence in original arrival order). In any other state, do nothing. -/
def WebSocketMessageReader.listen {J : Type} (parse : String → J)
    (st : WebSocketMessageReader) (cb : Nat) :
    WebSocketMessageReader × List (Emit J) :=
  if st.state = .initial then
    WebSocketMessageReader.drainEvents parse
      { st with state := .listening, callback := some cb, events := [] }
      st.events.reverse
  else (st, [])

/-- `dispose()` of the handle returned by `listen(callback)`: clear the
stored callback only if it is still the very callback the handle was
created with (`if (this.callback === callback)`). -/
def WebSocketMessageReader.disposeListener
    (st : WebSocketMessageReader) (cb : Nat) : WebSocketMessageReader :=
  if st.callback = some cb then { st with callback := none } else st

/-- A raw socket event as seen by the constructor's subscriptions. -/
inductive SocketEvent
  | message (s : String)
  | error (e : ErrVal)
  | close (code : Nat) (reason : String)
deriving DecidableEq, Repr

/-- The `Error` object synthesized for a non-1000 close code:
`{ name: '' + code, message: 'Error during socket reconnect: ...' }`. -/
def closeReconnectError (code : Nat) (reason : String) : ErrVal :=
  .closeErr (toString code)
    ("Error during socket reconnect: code = " ++ toString code ++ ", reason = " ++ reason)

/-- The reader constructor's socket subscriptions: `onMessage` feeds
`readMessage`, `onError` feeds `fireError`, and `onClose` synthesizes an
error first when the code is not 1000, then fires close. -/
def WebSocketMessageReader.handleSocketEvent {J : Type} (parse : String → J)
    (st : WebSocketMessageReader) :
    SocketEvent → WebSocketMessageReader × List (Emit J)
  | .message s => st.readMessage parse s
  | .error e => st.fireError e
  | .close code reason =>
    let p1 := if code ≠ 1000 then st.fireError (closeReconnectError code reason) else (st, [])
    let p2 := p1.1.fireClose
    (p2.1, p1.2 ++ p2.2)

/-- An action performed on a reader: a socket event delivery, a `listen`
call, or disposing a listen handle. -/
inductive Action
  | sockEv (e : SocketEvent)
  | listenTo (cb : Nat)
  | disposeOf (cb : Nat)
deriving DecidableEq, Repr

/-- One action step on the reader, collecting its emissions. -/
def stepAction {J : Type} (parse : String → J)
    (st : WebSocketMessageReader) : Action → WebSocketMessageReader × List (Emit J)
  | .sockEv e => st.handleSocketEvent parse e
  | .listenTo cb => st.listen parse cb
  | .disposeOf cb => (st.disposeListener cb, [])

/-- Run a sequence of actions, concatenating the emission traces. -/
def runActions {J : Type} (parse : String → J)
    (st : WebSocketMessageReader) :
    List Action → WebSocketMessageReader × List (Emit J)
  | [] => (st, [])
  | a :: rest =>
    let p1 := stepAction parse st a
    let p2 := runActions parse p1.1 rest
    (p2.1, p1.2 ++ p2.2)

/-- The action delivering a socket message payload. -/
def msgAct (s : String) : Action := .sockEv (.message s)

/-- Whether an emission is a fired close event. -/
def Emit.isClose {J : Type} : Emit J → Bool
  | .close => true
  | _ => false

/-- Whether an emission is a listener-callback invocation. -/
def Emit.isMessage {J : Type} : Emit J → Bool
  | .message _ _ => true
  | _ => false

/-- Number of fired close events in a trace. -/
def closeCount {J : Type} (tr : List (Emit J)) : Nat :=
  tr.countP Emit.isClose

/-- Number of listener-callback invocations in a trace. -/
def messageCount {J : Type} (tr : List (Emit J)) : Nat :=
  tr.countP Emit.isMessage

/-- The identity decode, used to instantiate the abstract `JSON.parse`
parameter on concrete runs. -/
def strId : String → String := fun s => s

/-! ## WebSocketMessageWriter -/

/-- State of a `WebSocketMessageWriter`: the never-reset failure counter. -/
structure WebSocketMessageWriter where
  errorCount : Nat
deriving DecidableEq, Repr

/-- An observable effect of `write`: a successful `socket.send(content)`,
or a fired write-error event `fireError(e, msg, count)`. -/
inductive WriteEffect (M E : Type)
  | sent (content : String)
  | errorEvent (e : E) (msg : M) (count : Nat)
deriving DecidableEq, Repr

/-- `write(msg)`: `JSON.stringify` then `socket.send`, both inside the
`try`; on either throwing, increment `errorCount` and fire one write-error
event carrying the error, the message, and the incremented counter. The
function is total: no exception propagates to the caller. `stringify`
and `send` are the fallible serialization and socket-send primitives. -/
def WebSocketMessageWriter.write {M E : Type}
    (stringify : M → Except E String) (send : String → Except E Unit)
    (st : WebSocketMessageWriter) (msg : M) :
    WebSocketMessageWriter × List (WriteEffect M E) :=
  match stringify msg with
  | .ok content =>
    match send content with
    | .ok _ => (st, [.sent content])
    | .error e =>
      ({ errorCount := st.errorCount + 1 }, [.errorEvent e msg (st.errorCount + 1)])
  | .error e =>
    ({ errorCount := st.errorCount + 1 }, [.errorEvent e msg (st.errorCount + 1)])

/-- Run a sequence of `write` calls, concatenating the effect traces. -/
def runWrites {M E : Type}
    (stringify : M → Except E String) (send : String → Except E Unit)
    (st : WebSocketMessageWriter) :
    List M → WebSocketMessageWriter × List (WriteEffect M E)
  | [] => (st, [])
  | m :: rest =>
    let p1 := st.write stringify send m
    let p2 := runWrites stringify send p1.1 rest
    (p2.1, p1.2 ++ p2.2)

/-- The outcome of one write attempt: `some e` when serialization or send
throws `e`, `none` on success. -/
def writeFailure {M E : Type}
    (stringify : M → Except E String) (send : String → Except E Unit)
    (msg : M) : Option E :=
  match stringify msg with
  | .error e => some e
  | .ok content =>
    match send content with
    | .error e => some e
    | .ok _ => none

/-- The write-error events among a trace of write effects. -/
def errorEventsOf {M E : Type} :
    List (WriteEffect M E) → List (WriteEffect M E)
  | [] => []
  | .sent _ :: rest => errorEventsOf rest
  | .errorEvent e m c :: rest => .errorEvent e m c :: errorEventsOf rest

/-- The sequence number carried by a write effect (0 for a plain send). -/
def WriteEffect.seqCount {M E : Type} : WriteEffect M E → Nat
  | .sent _ => 0
  | .errorEvent _ _ c => c

/-- Modelled from the spec: the expected write-error events for a sequence
of writes starting from failure count `n` — one event per failing write,
carrying that write's error and message and the 1-based running failure
count, "1, 2, 3, ... across repeated failures", never reset. -/
def specWriteErrors {M E : Type}
    (stringify : M → Except E String) (send : String → Except E Unit)
    (n : Nat) : List M → List (WriteEffect M E)
  | [] => []
  | m :: rest =>
    match writeFailure stringify send m with
    | some e => .errorEvent e m (n + 1) :: specWriteErrors stringify send (n + 1) rest
    | none => specWriteErrors stringify send n rest

/-- Number of failing writes in a sequence of messages. -/
def failCount {M E : Type}
    (stringify : M → Except E String) (send : String → Except E Unit)
    (msgs : List M) : Nat :=
  msgs.countP (fun m => (writeFailure stringify send m).isSome)

/-! ## PluginWebSocketChannel envelope -/

/-- The plugin-channel envelope `PluginMessage`:
`{ jsonrpc: '0.0', content: string }`. -/
structure PluginMessage where
  jsonrpc : String
  content : String
deriving DecidableEq, Repr

/-- `PluginWebSocketChannel.send(content)`: the envelope handed to the
underlying connection's writer, with the bogus jsonrpc version `'0.0'`. -/
def pluginChannelSend (content : String) : PluginMessage :=
  { jsonrpc := "0.0", content := content }

/-- The unwrapping performed by `PluginWebSocketChannel.onMessage`'s
listener: `message => cb(message.content)`. -/
def pluginChannelUnwrap (m : PluginMessage) : String :=
  m.content

/-! ## createConnection: forward and onClose -/

/-- The default `map` of `forward`: `message => message`. -/
def defaultTransform {J : Type} (m : J) : J := m

/-- The writes performed by the listener that `forward(to, map)` registers
(`input => { const output = map(input); to.writer.write(output); }`): one
write of `map input` per listener-callback invocation in the reader's
emission trace, in trace order. -/
def forwardOutputs {J : Type} (map : J → J) :
    List (Emit J) → List J
  | [] => []
  | .message (some _) d :: rest => map d :: forwardOutputs map rest
  | _ :: rest => forwardOutputs map rest

/-- Modelled from the spec: the `DisposableCollection` used by
`createConnection` as the shared disposal group `disposeOnClose` — a group
of registered disposables (here: `onClose` callbacks by id); disposing the
group fires every member once and empties it, so "the first close from
either side tears down the group; second close must be a no-op, not a
double-fire". -/
structure DisposableCollection where
  disposables : List Nat
deriving DecidableEq, Repr

/-- Disposing the group: fire all members in order, leaving it empty. -/
def DisposableCollection.disposeAll (c : DisposableCollection) :
    DisposableCollection × List Nat :=
  (⟨[]⟩, c.disposables)

/-- `onClose(callback)` on a connection: push the callback into the shared
`disposeOnClose` group. -/
def DisposableCollection.push (c : DisposableCollection) (cb : Nat) :
    DisposableCollection :=
  ⟨c.disposables ++ [cb]⟩

/-- A close signal reaching the connection, from
`reader.onClose(() => disposeOnClose.dispose())` or
`writer.onClose(() => disposeOnClose.dispose())`. -/
inductive CloseSource
  | readerClose
  | writerClose
deriving DecidableEq, Repr

/-- Handle one underlying close signal: either source disposes the shared
group. -/
def connHandleClose (c : DisposableCollection) (_s : CloseSource) :
    DisposableCollection × List Nat :=
  c.disposeAll

/-- Run a sequence of underlying close signals, concatenating the lists of
fired `onClose` callbacks. -/
def runCloses (c : DisposableCollection) :
    List CloseSource → DisposableCollection × List Nat
  | [] => (c, [])
  | s :: rest =>
    let p1 := connHandleClose c s
    let p2 := runCloses p1.1 rest
    (p2.1, p1.2 ++ p2.2)

/-! ## Helper lemmas: closed-state absorption -/

theorem readMessage_closed {J : Type} (parse : String → J)
    (st : WebSocketMessageReader) (s : String) (h : st.state = .closed) :
    st.readMessage parse s = (st, []) := by
  simp [WebSocketMessageReader.readMessage, h]

theorem fireError_closed {J : Type} (st : WebSocketMessageReader) (e : ErrVal)
    (h : st.state = .closed) :
    st.fireError (J := J) e = (st, []) := by
  simp [WebSocketMessageReader.fireError, h]

theorem fireClose_closed {J : Type} (st : WebSocketMessageReader)
    (h : st.state = .closed) :
    st.fireClose (J := J) = (st, []) := by
  cases st with
  | mk s c e =>
    cases h
    simp [WebSocketMessageReader.fireClose]

theorem handleSocketEvent_closed {J : Type} (parse : String → J)
    (st : WebSocketMessageReader) (ev : SocketEvent) (h : st.state = .closed) :
    st.handleSocketEvent parse ev = (st, []) := by
  cases ev with
  | message s => exact readMessage_closed parse st s h
  | error e => exact fireError_closed st e h
  | close code reason =>
    by_cases hc : code = 1000 <;>
      simp [WebSocketMessageReader.handleSocketEvent, hc,
        fireError_closed st _ h, fireClose_closed st h]

theorem listen_not_initial {J : Type} (parse : String → J)
    (st : WebSocketMessageReader) (cb : Nat) (h : st.state ≠ .initial) :
    st.listen parse cb = (st, []) := by
  simp [WebSocketMessageReader.listen, h]

theorem disposeListener_state (st : WebSocketMessageReader) (cb : Nat) :
    (st.disposeListener cb).state = st.state := by
  simp only [WebSocketMessageReader.disposeListener]
  split <;> rfl

theorem stepAction_closed {J : Type} (parse : String → J)
    (st : WebSocketMessageReader) (a : Action) (h : st.state = .closed) :
    (stepAction parse st a).2 = [] ∧ (stepAction parse st a).1.state = .closed := by
  cases a with
  | sockEv e => simp [stepAction, handleSocketEvent_closed parse st e h, h]
  | listenTo cb =>
    simp [stepAction, listen_not_initial parse st cb (by simp [h]), h]
  | disposeOf cb => simp [stepAction, disposeListener_state, h]

theorem runActions_closed {J : Type} (parse : String → J)
    (acts : List Action) (st : WebSocketMessageReader) (h : st.state = .closed) :
    (runActions parse st acts).2 = [] ∧ (runActions parse st acts).1.state = .closed := by
  induction acts generalizing st with
  | nil => simpa [runActions] using h
  | cons a rest ih =>
    have h1 := stepAction_closed parse st a h
    have h2 := ih (stepAction parse st a).1 h1.2
    simp [runActions, h1.1, h2.1, h2.2]

/-! ## Helper lemmas: buffering, replay and live delivery -/

theorem runActions_append {J : Type} (parse : String → J)
    (l1 l2 : List Action) (st : WebSocketMessageReader) :
    runActions parse st (l1 ++ l2)
      = ((runActions parse (runActions parse st l1).1 l2).1,
         (runActions parse st l1).2
           ++ (runActions parse (runActions parse st l1).1 l2).2) := by
  induction l1 generalizing st with
  | nil => simp [runActions]
  | cons a rest ih => simp [runActions, ih]

theorem run_buffer_msgs {J : Type} (parse : String → J) (msgs : List String)
    (st : WebSocketMessageReader) (h : st.state = .initial) :
    runActions parse st (msgs.map msgAct)
      = ({ st with events := msgs.reverse.map BufEvent.msg ++ st.events }, []) := by
  induction msgs generalizing st with
  | nil => simp [runActions]
  | cons m rest ih =>
    have step1 : stepAction (J := J) parse st (msgAct m)
        = ({ st with events := .msg m :: st.events }, []) := by
      simp [stepAction, msgAct, WebSocketMessageReader.handleSocketEvent,
        WebSocketMessageReader.readMessage, h]
    have step2 := ih { st with events := BufEvent.msg m :: st.events } (by simpa using h)
    simp [runActions, step1, step2]

theorem drainEvents_append {J : Type} (parse : String → J)
    (l1 l2 : List BufEvent) (st : WebSocketMessageReader) :
    st.drainEvents parse (l1 ++ l2)
      = ((((st.drainEvents parse l1).1).drainEvents parse l2).1,
         (st.drainEvents parse l1).2
           ++ (((st.drainEvents parse l1).1).drainEvents parse l2).2) := by
  induction l1 generalizing st with
  | nil => simp [WebSocketMessageReader.drainEvents]
  | cons e rest ih => simp [WebSocketMessageReader.drainEvents, ih]

theorem drain_msgs {J : Type} (parse : String → J) (msgs : List String)
    (st : WebSocketMessageReader) (cb : Nat)
    (hs : st.state = .listening) (hc : st.callback = some cb)
    (hne : ∀ m ∈ msgs, m ≠ "") :
    st.drainEvents parse (msgs.map BufEvent.msg)
      = (st, msgs.map (fun m => Emit.message (some cb) (parse m))) := by
  induction msgs with
  | nil => simp [WebSocketMessageReader.drainEvents]
  | cons m rest ih =>
    have hm : ¬(m = "") := hne m (by simp)
    have ihr := ih (fun x hx => hne x (by simp [hx]))
    simp [WebSocketMessageReader.drainEvents,
      WebSocketMessageReader.dispatchBuffered, hm,
      WebSocketMessageReader.readMessage, hs, hc, ihr]

theorem run_live_msgs {J : Type} (parse : String → J) (msgs : List String)
    (st : WebSocketMessageReader) (cb : Nat)
    (hs : st.state = .listening) (hc : st.callback = some cb) :
    runActions parse st (msgs.map msgAct)
      = (st, msgs.map (fun m => Emit.message (some cb) (parse m))) := by
  induction msgs with
  | nil => simp [runActions]
  | cons m rest ih =>
    simp [runActions, stepAction, msgAct,
      WebSocketMessageReader.handleSocketEvent,
      WebSocketMessageReader.readMessage, hs, hc, ih]

theorem listen_after_buffer {J : Type} (parse : String → J) (pre : List String)
    (cb : Nat) (hne : ∀ m ∈ pre, m ≠ "") :
    WebSocketMessageReader.listen parse
        { state := .initial, callback := none, events := (pre.map BufEvent.msg).reverse } cb
      = ({ state := .listening, callback := some cb, events := [] },
         pre.map (fun m => Emit.message (some cb) (parse m))) := by
  have hdrain := drain_msgs parse pre
      { state := RState.listening, callback := some cb, events := [] } cb rfl rfl hne
  have hrev : (List.map BufEvent.msg pre.reverse).reverse = List.map BufEvent.msg pre := by
    simp
  simp [WebSocketMessageReader.listen, hrev, hdrain]

theorem run_pre_listen_post {J : Type} (parse : String → J)
    (pre post : List String) (cb : Nat) (hne : ∀ m ∈ pre, m ≠ "") :
    runActions parse initialReader
        (pre.map msgAct ++ Action.listenTo cb :: post.map msgAct)
      = ({ state := .listening, callback := some cb, events := [] },
         (pre ++ post).map (fun m => Emit.message (some cb) (parse m))) := by
  have hbuf : runActions parse
      { state := RState.initial, callback := none, events := [] } (pre.map msgAct)
      = ({ state := RState.initial, callback := none,
           events := pre.reverse.map BufEvent.msg }, []) := by
    simpa [initialReader] using run_buffer_msgs parse pre initialReader rfl
  have hlisten := listen_after_buffer parse pre cb hne
  have hlive := run_live_msgs parse post
      { state := RState.listening, callback := some cb, events := [] } cb rfl rfl
  rw [show initialReader = { state := RState.initial, callback := none, events := [] } from rfl,
    runActions_append, hbuf]
  simp [runActions, stepAction, hlisten, hlive]

/-! ## Helper lemmas: the close event fires at most once -/

theorem closeCount_append {J : Type} (t1 t2 : List (Emit J)) :
    closeCount (t1 ++ t2) = closeCount t1 + closeCount t2 := by
  simp [closeCount, List.countP_append]

theorem fireClose_count {J : Type} (st : WebSocketMessageReader) :
    closeCount (st.fireClose (J := J)).2 ≤ 1
    ∧ (st.fireClose (J := J)).1.state = .closed := by
  cases hs : st.state <;>
    simp [WebSocketMessageReader.fireClose, hs, closeCount, Emit.isClose]

theorem fireError_count {J : Type} (st : WebSocketMessageReader) (e : ErrVal) :
    closeCount (st.fireError (J := J) e).2 = 0
    ∧ (st.fireError (J := J) e).1.state = st.state := by
  cases hs : st.state <;>
    simp [WebSocketMessageReader.fireError, hs, closeCount, Emit.isClose]

theorem readMessage_count {J : Type} (parse : String → J)
    (st : WebSocketMessageReader) (s : String) :
    closeCount (st.readMessage parse s).2 = 0
    ∧ (st.readMessage parse s).1.state = st.state := by
  cases hs : st.state <;>
    simp [WebSocketMessageReader.readMessage, hs, closeCount, Emit.isClose]

theorem dispatchBuffered_count {J : Type} (parse : String → J)
    (st : WebSocketMessageReader) (e : BufEvent) (h : st.state ≠ .initial) :
    closeCount (st.dispatchBuffered parse e).2 ≤ 1
    ∧ ((st.dispatchBuffered parse e).1.state ≠ .closed →
        closeCount (st.dispatchBuffered parse e).2 = 0)
    ∧ (st.dispatchBuffered parse e).1.state ≠ .initial := by
  cases e with
  | msg s =>
    by_cases hs : s = ""
    · have hf := fireClose_count (J := J) st
      simp [WebSocketMessageReader.dispatchBuffered, hs, hf.1, hf.2]
    · have hr := readMessage_count parse st s
      simp [WebSocketMessageReader.dispatchBuffered, hs, hr.1, hr.2, h]
  | err v =>
    by_cases hv : v.isTruthy
    · have hf := fireError_count (J := J) st v
      simp [WebSocketMessageReader.dispatchBuffered, hv, hf.1, hf.2, h]
    · have hf := fireClose_count (J := J) st
      simp [WebSocketMessageReader.dispatchBuffered, hv, hf.1, hf.2]
  | closeMark =>
    have hf := fireClose_count (J := J) st
    simp [WebSocketMessageReader.dispatchBuffered, hf.1, hf.2]

theorem dispatchBuffered_closed {J : Type} (parse : String → J)
    (st : WebSocketMessageReader) (e : BufEvent) (h : st.state = .closed) :
    (st.dispatchBuffered parse e).2 = []
    ∧ (st.dispatchBuffered parse e).1.state = .closed := by
  cases e with
  | msg s =>
    by_cases hs : s = "" <;>
      simp [WebSocketMessageReader.dispatchBuffered, hs,
        fireClose_closed st h, readMessage_closed parse st s h, h]
  | err v =>
    by_cases hv : v.isTruthy <;>
      simp [WebSocketMessageReader.dispatchBuffered, hv,
        fireClose_closed st h, fireError_closed st v h, h]
  | closeMark =>
    simp [WebSocketMessageReader.dispatchBuffered, fireClose_closed st h, h]

theorem drainEvents_closed {J : Type} (parse : String → J) (es : List BufEvent)
    (st : WebSocketMessageReader) (h : st.state = .closed) :
    (st.drainEvents parse es).2 = []
    ∧ (st.drainEvents parse es).1.state = .closed := by
  induction es generalizing st with
  | nil => simpa [WebSocketMessageReader.drainEvents] using h
  | cons e rest ih =>
    have h1 := dispatchBuffered_closed parse st e h
    have h2 := ih (st.dispatchBuffered parse e).1 h1.2
    simp [WebSocketMessageReader.drainEvents, h1.1, h2.1, h2.2]

theorem drainEvents_count {J : Type} (parse : String → J) (es : List BufEvent)
    (st : WebSocketMessageReader) (h : st.state ≠ .initial) :
    closeCount (st.drainEvents parse es).2 ≤ 1
    ∧ ((st.drainEvents parse es).1.state ≠ .closed →
        closeCount (st.drainEvents parse es).2 = 0)
    ∧ (st.drainEvents parse es).1.state ≠ .initial := by
  induction es generalizing st with
  | nil => simpa [WebSocketMessageReader.drainEvents, closeCount] using h
  | cons e rest ih =>
    have h1 := dispatchBuffered_count parse st e h
    by_cases hm : (st.dispatchBuffered parse e).1.state = .closed
    · have h2 := drainEvents_closed parse rest (st.dispatchBuffered parse e).1 hm
      refine ⟨?_, ?_, ?_⟩ <;>
        simp [WebSocketMessageReader.drainEvents, closeCount_append, h2.1, h2.2, h1.1]
    · have h2 := ih (st.dispatchBuffered parse e).1 h1.2.2
      have hz := h1.2.1 hm
      refine ⟨?_, ?_, ?_⟩ <;>
        simp [WebSocketMessageReader.drainEvents, closeCount_append, hz, h2.1,
          h2.2.1, h2.2.2]
      intro hfin
      exact h2.2.1 hfin

theorem stepAction_count {J : Type} (parse : String → J)
    (st : WebSocketMessageReader) (a : Action) :
    closeCount (stepAction parse st a).2 ≤ 1
    ∧ ((stepAction parse st a).1.state ≠ .closed →
        closeCount (stepAction parse st a).2 = 0) := by
  cases a with
  | sockEv e =>
    cases e with
    | message s =>
      have hr := readMessage_count parse st s
      simp [stepAction, WebSocketMessageReader.handleSocketEvent, hr.1]
    | error v =>
      have hf := fireError_count (J := J) st v
      simp [stepAction, WebSocketMessageReader.handleSocketEvent, hf.1]
    | close code reason =>
      by_cases hc : code = 1000
      · have hf := fireClose_count (J := J) st
        simp [stepAction, WebSocketMessageReader.handleSocketEvent, hc,
          closeCount_append, hf.1, hf.2]
      · have he := fireError_count (J := J) st (closeReconnectError code reason)
        have hf := fireClose_count
            (J := J) (st.fireError (J := J) (closeReconnectError code reason)).1
        simp [stepAction, WebSocketMessageReader.handleSocketEvent, hc,
          closeCount_append, he.1, hf.1, hf.2]
  | listenTo cb =>
    by_cases hi : st.state = .initial
    · have hd := drainEvents_count parse st.events.reverse
          { st with state := RState.listening, callback := some cb, events := [] }
          (by simp)
      constructor
      · simpa [stepAction, WebSocketMessageReader.listen, hi] using hd.1
      · simpa [stepAction, WebSocketMessageReader.listen, hi] using hd.2.1
    · simp [stepAction, listen_not_initial parse st cb hi, closeCount]
  | disposeOf cb => simp [stepAction, closeCount]

theorem runActions_count {J : Type} (parse : String → J) (acts : List Action)
    (st : WebSocketMessageReader) :
    closeCount (runActions parse st acts).2 ≤ 1
    ∧ ((runActions parse st acts).1.state ≠ .closed →
        closeCount (runActions parse st acts).2 = 0) := by
  induction acts generalizing st with
  | nil => simp [runActions, closeCount]
  | cons a rest ih =>
    have h1 := stepAction_count parse st a
    by_cases hm : (stepAction parse st a).1.state = .closed
    · have h2 := runActions_closed parse rest (stepAction parse st a).1 hm
      refine ⟨?_, ?_⟩ <;>
        simp [runActions, closeCount_append, h2.1, h2.2, h1.1]
    · have hz := h1.2 hm
      have h2 := ih (stepAction parse st a).1
      refine ⟨?_, ?_⟩ <;>
        simp [runActions, closeCount_append, hz, h2.1]
      intro hfin
      exact h2.2 hfin

/-! ## Helper lemmas: writer error sequence -/

theorem runWrites_errors {M E : Type}
    (stringify : M → Except E String) (send : String → Except E Unit)
    (msgs : List M) (n : Nat) :
    errorEventsOf (runWrites stringify send ⟨n⟩ msgs).2
      = specWriteErrors stringify send n msgs
    ∧ (runWrites stringify send ⟨n⟩ msgs).1.errorCount
      = n + failCount stringify send msgs := by
  induction msgs generalizing n with
  | nil => simp [runWrites, errorEventsOf, specWriteErrors, failCount]
  | cons m rest ih =>
    cases hstr : stringify m with
    | error e =>
      have ihn := ih (n + 1)
      constructor
      · simp [runWrites, WebSocketMessageWriter.write, hstr, errorEventsOf,
          specWriteErrors, writeFailure, ihn.1]
      · simp [runWrites, WebSocketMessageWriter.write, hstr, failCount,
          writeFailure, List.countP_cons, ihn.2]
        omega
    | ok content =>
      cases hsend : send content with
      | error e =>
        have ihn := ih (n + 1)
        constructor
        · simp [runWrites, WebSocketMessageWriter.write, hstr, hsend,
            errorEventsOf, specWriteErrors, writeFailure, ihn.1]
        · simp [runWrites, WebSocketMessageWriter.write, hstr, hsend,
            failCount, writeFailure, List.countP_cons, ihn.2]
          omega
      | ok u =>
        have ihn := ih n
        constructor
        · simp [runWrites, WebSocketMessageWriter.write, hstr, hsend,
            errorEventsOf, specWriteErrors, writeFailure, ihn.1]
        · simp [runWrites, WebSocketMessageWriter.write, hstr, hsend,
            failCount, writeFailure, List.countP_cons, ihn.2]

theorem specWriteErrors_counts {M E : Type}
    (stringify : M → Except E String) (send : String → Except E Unit)
    (msgs : List M) (n : Nat) :
    (specWriteErrors stringify send n msgs).map WriteEffect.seqCount
      = List.range' (n + 1) (failCount stringify send msgs) := by
  induction msgs generalizing n with
  | nil => simp [specWriteErrors, failCount]
  | cons m rest ih =>
    cases hw : writeFailure stringify send m with
    | none =>
      simp [specWriteErrors, hw, failCount, List.countP_cons, ih]
    | some e =>
      have heq : failCount stringify send (m :: rest)
          = failCount stringify send rest + 1 := by
        simp [failCount, List.countP_cons, hw]
      rw [heq, List.range'_succ]
      simp [specWriteErrors, hw, WriteEffect.seqCount, ih (n + 1), failCount]

/-! ## Helper lemmas: connection close group -/

theorem runCloses_empty (closes : List CloseSource) :
    runCloses ⟨[]⟩ closes = (⟨[]⟩, []) := by
  induction closes with
  | nil => rfl
  | cons c rest ih =>
    simp [runCloses, connHandleClose, DisposableCollection.disposeAll, ih]

theorem registerAll_disposables (cbs : List Nat) (l : List Nat) :
    (cbs.foldl DisposableCollection.push ⟨l⟩).disposables = l ++ cbs := by
  induction cbs generalizing l with
  | nil => simp
  | cons cb rest ih =>
    simp [List.foldl_cons, DisposableCollection.push, ih]

/-! ## Helper lemmas: forwarding -/

theorem forwardOutputs_map_messages {J : Type} (map : J → J)
    (parse : String → J) (cb : Nat) (l : List String) :
    forwardOutputs map (l.map (fun m => Emit.message (some cb) (parse m)))
      = l.map (fun m => map (parse m)) := by
  induction l with
  | nil => rfl
  | cons m rest ih => simp [forwardOutputs, ih]

/-! ## Claim theorems -/

/-- C1 counterexample: with a single pre-listen socket message whose payload
is the empty string (N = 1), the subsequent `listen(cb)` invokes the
callback zero times — the buffered entry fails the `if (event.message)`
truthiness test and is routed to the close path — refuting the claim as
stated for every sequence of message events. -/
theorem c1_counterexample :
    (runActions strId initialReader [msgAct "", Action.listenTo 0]).2
      = [Emit.close]
    ∧ messageCount (runActions strId initialReader
        [msgAct "", Action.listenTo 0]).2 = 0 := by
  constructor <;> rfl

/-- C1 (amended: every buffered payload non-empty, as forced by the
empty-string counterexample): for N socket message events delivered while
no listener is attached, a subsequent first `listen(cb)` invokes `cb`
exactly N times in the original socket-arrival order, and all N
invocations come before any message arriving after `listen` is delivered —
the whole emission trace is the callback invocations for `pre ++ post` in
order. -/
theorem c1_buffered_replay_order {J : Type} (parse : String → J)
    (pre post : List String) (cb : Nat) (hne : ∀ m ∈ pre, m ≠ "") :
    (runActions parse initialReader
        (pre.map msgAct ++ Action.listenTo cb :: post.map msgAct)).2
      = (pre ++ post).map (fun m => Emit.message (some cb) (parse m)) := by
  rw [run_pre_listen_post parse pre post cb hne]

/-- C1 witness: two buffered messages and one live message, callback id 5. -/
theorem c1_buffered_replay_order_witness :
    (runActions strId initialReader
        (["a", "b"].map msgAct ++ Action.listenTo 5 :: ["c"].map msgAct)).2
      = (["a", "b"] ++ ["c"]).map (fun m => Emit.message (some 5) (strId m)) :=
  c1_buffered_replay_order strId ["a", "b"] ["c"] 5 (by decide)

/-- C2 counterexample: deliver the message `"hi"` and then a normal close
while still `'initial'`; the reader is closed with the buffered message
still queued, yet a subsequent `listen` and any further event deliver
nothing at all — the buffered event is never replayed to the late
listener, refuting the claim as stated. -/
theorem c2_counterexample :
    (runActions strId initialReader
        [msgAct "hi", Action.sockEv (.close 1000 "bye")]).1.events
      = [BufEvent.closeMark, BufEvent.msg "hi"]
    ∧ (runActions strId initialReader
        [msgAct "hi", Action.sockEv (.close 1000 "bye"),
         Action.listenTo 0, msgAct "z"]).2 = [] := by
  constructor <;> rfl

/-- C2 (amended): if the underlying socket closes while the reader is still
`'initial'`, the reader is marked closed immediately — but buffered events
are NOT replayed to a listener attached later: since `listen` replays only
in state `'initial'` and the state is already `'closed'`, `listen(cb)` and
every subsequent action deliver nothing at all. -/
theorem c2_closed_before_listen {J : Type} (parse : String → J)
    (st : WebSocketMessageReader) (code : Nat) (reason : String)
    (cb : Nat) (rest : List Action) (h : st.state = .initial) :
    (st.handleSocketEvent (J := J) parse (.close code reason)).1.state = RState.closed
    ∧ (runActions parse (st.handleSocketEvent (J := J) parse (.close code reason)).1
        (Action.listenTo cb :: rest)).2 = [] := by
  have hclosed : (st.handleSocketEvent (J := J) parse
      (.close code reason)).1.state = .closed := by
    by_cases hc : code = 1000 <;>
      simp [WebSocketMessageReader.handleSocketEvent, hc,
        WebSocketMessageReader.fireError, WebSocketMessageReader.fireClose, h]
  exact ⟨hclosed, (runActions_closed parse _ _ hclosed).1⟩

/-- C2 witness: normal close on a fresh reader, then `listen` plus one more
message. -/
theorem c2_closed_before_listen_witness :
    (initialReader.handleSocketEvent (J := String) strId
        (.close 1000 "bye")).1.state = RState.closed
    ∧ (runActions strId (initialReader.handleSocketEvent (J := String) strId
        (.close 1000 "bye")).1
        (Action.listenTo 0 :: [msgAct "z"])).2 = [] :=
  c2_closed_before_listen strId initialReader 1000 "bye" 0 [msgAct "z"] rfl

/-- C3: for a socket close event received while listening, close code 1000
fires only the close event; any other code fires first an error event
carrying the synthesized error (whose name is the decimal close code) and
then the close event. -/
theorem c3_close_code_dispatch {J : Type} (parse : String → J)
    (st : WebSocketMessageReader) (code : Nat) (reason : String)
    (h : st.state = .listening) :
    (st.handleSocketEvent parse (.close code reason)).2
      = if code = 1000 then [Emit.close]
        else [Emit.error (closeReconnectError code reason), Emit.close] := by
  by_cases hc : code = 1000 <;>
    simp [WebSocketMessageReader.handleSocketEvent, hc,
      WebSocketMessageReader.fireError, WebSocketMessageReader.fireClose, h]

/-- C3 witness: abnormal close code 1006 on a listening reader. -/
theorem c3_close_code_dispatch_witness :
    (WebSocketMessageReader.handleSocketEvent strId
        { state := RState.listening, callback := some 1, events := [] }
        (.close 1006 "abnormal")).2
      = if 1006 = 1000 then [Emit.close]
        else [Emit.error (closeReconnectError 1006 "abnormal"), Emit.close] :=
  c3_close_code_dispatch strId
    { state := RState.listening, callback := some 1, events := [] }
    1006 "abnormal" rfl

/-- C4: once the reader has reached `'closed'`, no further socket event
(nor listen or dispose call) produces any emission — in particular no
listener-callback invocation and no fired error event; and over every
action sequence on a fresh reader the close event fires at most once. -/
theorem c4_post_close_silence {J : Type} (parse : String → J) :
    (∀ st : WebSocketMessageReader, st.state = RState.closed →
      ∀ acts : List Action, (runActions parse st acts).2 = [])
    ∧ ∀ acts : List Action,
        closeCount (runActions parse initialReader acts).2 ≤ 1 :=
  ⟨fun st h acts => (runActions_closed parse acts st h).1,
   fun acts => (runActions_count parse acts initialReader).1⟩

/-- C4 witness: a closed reader absorbs a message, an error and another
close silently; a full listening run with two close events fires close at
most once. -/
theorem c4_post_close_silence_witness :
    (runActions strId
        { state := RState.closed, callback := none, events := [] }
        [msgAct "a", Action.sockEv (.error (.raw true 5)),
         Action.sockEv (.close 1006 "r")]).2 = []
    ∧ closeCount (runActions strId initialReader
        [msgAct "a", Action.listenTo 3, Action.sockEv (.close 1006 "r"),
         Action.sockEv (.close 1000 "s"), msgAct "b"]).2 ≤ 1 :=
  ⟨(c4_post_close_silence strId).1 _ rfl _, (c4_post_close_silence strId).2 _⟩

/-- C5: over any sequence of `write` calls from a fresh writer, the
write-error events are exactly one per failing write, in order, each
carrying that write's error and message and a sequence number equal to the
running count of failed writes so far — 1, 2, 3, ..., strictly increasing
and never reset (`List.range' 1`); the final `errorCount` equals the total
number of failures. `write` itself is a total function of the embedding:
no exception propagates to its caller. -/
theorem c5_write_error_sequence {M E : Type}
    (stringify : M → Except E String) (send : String → Except E Unit)
    (msgs : List M) :
    errorEventsOf (runWrites stringify send ⟨0⟩ msgs).2
      = specWriteErrors stringify send 0 msgs
    ∧ (errorEventsOf (runWrites stringify send ⟨0⟩ msgs).2).map
        WriteEffect.seqCount
      = List.range' 1 (failCount stringify send msgs)
    ∧ (runWrites stringify send ⟨0⟩ msgs).1.errorCount
      = failCount stringify send msgs := by
  have h := runWrites_errors stringify send msgs 0
  refine ⟨h.1, ?_, by simpa using h.2⟩
  rw [h.1]
  simpa using specWriteErrors_counts stringify send msgs 0

/-- C6: after `forward(target, f)`, every message received on the
connection's reader is written to the target's writer in arrival order as
`f m`; with no transform supplied (the default `message => message`), the
writes are exactly the received messages themselves. -/
theorem c6_forward_fidelity {J : Type} (parse : String → J) (f : J → J)
    (pre post : List String) (cb : Nat) (hne : ∀ m ∈ pre, m ≠ "") :
    forwardOutputs f (runActions parse initialReader
        (pre.map msgAct ++ Action.listenTo cb :: post.map msgAct)).2
      = (pre ++ post).map (fun m => f (parse m))
    ∧ forwardOutputs defaultTransform (runActions parse initialReader
        (pre.map msgAct ++ Action.listenTo cb :: post.map msgAct)).2
      = (pre ++ post).map parse := by
  have hrun := run_pre_listen_post parse pre post cb hne
  constructor
  · rw [hrun]
    exact forwardOutputs_map_messages f parse cb (pre ++ post)
  · rw [hrun]
    simpa [defaultTransform] using
      forwardOutputs_map_messages defaultTransform parse cb (pre ++ post)

/-- C6 witness: one buffered and one live message, transform appending
an exclamation mark, and the default identity transform. -/
theorem c6_forward_fidelity_witness :
    forwardOutputs (fun s => s ++ "!") (runActions strId initialReader
        (["a"].map msgAct ++ Action.listenTo 2 :: ["b"].map msgAct)).2
      = (["a"] ++ ["b"]).map (fun m => (fun s => s ++ "!") (strId m))
    ∧ forwardOutputs defaultTransform (runActions strId initialReader
        (["a"].map msgAct ++ Action.listenTo 2 :: ["b"].map msgAct)).2
      = (["a"] ++ ["b"]).map strId :=
  c6_forward_fidelity strId (fun s => s ++ "!") ["a"] ["b"] 2 (by decide)

/-- C7: `PluginWebSocketChannel.send(s)` hands the underlying connection's
writer exactly the envelope `{ jsonrpc: "0.0", content: s }`, and the
`onMessage` unwrapping applied to that envelope yields back exactly `s`. -/
theorem c7_envelope_roundtrip (s : String) :
    pluginChannelSend s = { jsonrpc := "0.0", content := s }
    ∧ pluginChannelUnwrap (pluginChannelSend s) = s :=
  ⟨rfl, rfl⟩

/-- C8: registering callbacks through the connection's `onClose` (pushed
into the shared `disposeOnClose` group) and then delivering any non-empty
sequence of reader-close / writer-close signals fires each registered
callback exactly once in total: the full fired trace equals the
registration list — never once per underlying close source. -/
theorem c8_connection_close_once (cbs : List Nat)
    (closes : List CloseSource) (hne : closes ≠ []) :
    (runCloses (cbs.foldl DisposableCollection.push ⟨[]⟩) closes).2 = cbs
    ∧ ∀ cb : Nat,
        ((runCloses (cbs.foldl DisposableCollection.push ⟨[]⟩) closes).2).count cb
          = cbs.count cb := by
  have hreg : cbs.foldl DisposableCollection.push ⟨[]⟩
      = (⟨cbs⟩ : DisposableCollection) := by
    have h := registerAll_disposables cbs []
    simp only [List.nil_append] at h
    calc cbs.foldl DisposableCollection.push ⟨[]⟩
        = ⟨(cbs.foldl DisposableCollection.push ⟨[]⟩).disposables⟩ := rfl
      _ = ⟨cbs⟩ := by rw [h]
  rw [hreg]
  cases closes with
  | nil => exact absurd rfl hne
  | cons c restC =>
    have hrest := runCloses_empty restC
    constructor
    · simp [runCloses, connHandleClose, DisposableCollection.disposeAll, hrest]
    · intro cb
      simp [runCloses, connHandleClose, DisposableCollection.disposeAll, hrest]

/-- C8 witness: two callbacks, reader-close then writer-close; each fires
exactly once. -/
theorem c8_connection_close_once_witness :
    (runCloses (([1, 2] : List Nat).foldl DisposableCollection.push ⟨[]⟩)
        [CloseSource.readerClose, CloseSource.writerClose]).2 = [1, 2]
    ∧ ((runCloses (([1, 2] : List Nat).foldl DisposableCollection.push ⟨[]⟩)
        [CloseSource.readerClose, CloseSource.writerClose]).2).count 1
      = ([1, 2] : List Nat).count 1 :=
  ⟨(c8_connection_close_once [1, 2]
      [CloseSource.readerClose, CloseSource.writerClose] (by decide)).1,
   (c8_connection_close_once [1, 2]
      [CloseSource.readerClose, CloseSource.writerClose] (by decide)).2 1⟩

/-- C9: calling `listen(cb2)` while already `'listening'` with stored
callback `cb1` leaves state and callback unchanged and emits nothing (the
first listener keeps receiving every message, `cb2` never any); disposing
the handle returned by that second call does not clear `cb1` — dispose
clears the stored callback only when it is the very callback the handle
was created with. -/
theorem c9_second_listen_ignored {J : Type} (parse : String → J)
    (st : WebSocketMessageReader) (cb1 cb2 : Nat) (s : String)
    (hs : st.state = .listening) (hc : st.callback = some cb1)
    (hne : cb1 ≠ cb2) :
    st.listen (J := J) parse cb2 = (st, [])
    ∧ st.disposeListener cb2 = st
    ∧ st.disposeListener cb1 = { st with callback := none }
    ∧ (st.handleSocketEvent parse (.message s)).2
        = [Emit.message (some cb1) (parse s)] := by
  refine ⟨listen_not_initial parse st cb2 (by simp [hs]), ?_, ?_, ?_⟩
  · simp [WebSocketMessageReader.disposeListener, hc, hne]
  · simp [WebSocketMessageReader.disposeListener, hc]
  · simp [WebSocketMessageReader.handleSocketEvent,
      WebSocketMessageReader.readMessage, hs, hc]

/-- C9 witness: listening reader holding callback 1; a second `listen` with
callback 2 is ignored and its dispose is ineffective. -/
theorem c9_second_listen_ignored_witness :
    WebSocketMessageReader.listen (J := String) strId
        { state := RState.listening, callback := some 1, events := [] } 2
      = ({ state := RState.listening, callback := some 1, events := [] }, [])
    ∧ WebSocketMessageReader.disposeListener
        { state := RState.listening, callback := some 1, events := [] } 2
      = { state := RState.listening, callback := some 1, events := [] }
    ∧ WebSocketMessageReader.disposeListener
        { state := RState.listening, callback := some 1, events := [] } 1
      = { state := RState.listening, callback := none, events := [] }
    ∧ (WebSocketMessageReader.handleSocketEvent strId
        { state := RState.listening, callback := some 1, events := [] }
        (.message "x")).2
      = [Emit.message (some 1) (strId "x")] :=
  c9_second_listen_ignored strId
    { state := RState.listening, callback := some 1, events := [] }
    1 2 "x" rfl rfl (by decide)

/-- C10: a socket message whose payload is the empty string arriving while
`'initial'` is buffered as `{ message: "" }`, which the replay's
`if (event.message)` truthiness test cannot distinguish from the buffered
close marker `{}`: during the `listen` replay it is routed to the close
path — the close event fires and the reader ends `'closed'` — instead of
being delivered as a message. -/
theorem c10_empty_message_closes {J : Type} (parse : String → J)
    (pre : List String) (cb : Nat) (hne : ∀ m ∈ pre, m ≠ "") :
    (runActions parse initialReader
        ((pre ++ [""]).map msgAct ++ [Action.listenTo cb])).2
      = pre.map (fun m => Emit.message (some cb) (parse m)) ++ [Emit.close]
    ∧ (runActions parse initialReader
        ((pre ++ [""]).map msgAct ++ [Action.listenTo cb])).1.state
      = RState.closed := by
  have hdrain : WebSocketMessageReader.drainEvents parse
      { state := RState.listening, callback := some cb, events := [] }
      (pre.map BufEvent.msg ++ [BufEvent.msg ""])
      = ({ state := RState.closed, callback := some cb, events := [] },
         pre.map (fun m => Emit.message (some cb) (parse m)) ++ [Emit.close]) := by
    rw [drainEvents_append, drain_msgs parse pre _ cb rfl rfl hne]
    simp [WebSocketMessageReader.drainEvents,
      WebSocketMessageReader.dispatchBuffered, WebSocketMessageReader.fireClose]
  have hlisten : WebSocketMessageReader.listen parse
      { state := RState.initial, callback := none,
        events := BufEvent.msg "" :: (pre.map BufEvent.msg).reverse } cb
      = ({ state := RState.closed, callback := some cb, events := [] },
         pre.map (fun m => Emit.message (some cb) (parse m)) ++ [Emit.close]) := by
    have hrev : (BufEvent.msg "" :: (pre.map BufEvent.msg).reverse).reverse
        = pre.map BufEvent.msg ++ [BufEvent.msg ""] := by simp
    simp [WebSocketMessageReader.listen, hrev, hdrain]
  have hbuf : runActions parse
      { state := RState.initial, callback := none, events := [] }
      ((pre ++ [""]).map msgAct)
      = ({ state := RState.initial, callback := none,
           events := BufEvent.msg "" :: (pre.map BufEvent.msg).reverse }, []) := by
    simpa [initialReader] using run_buffer_msgs parse (pre ++ [""]) initialReader rfl
  have hfull : runActions parse initialReader
      ((pre ++ [""]).map msgAct ++ [Action.listenTo cb])
      = ({ state := RState.closed, callback := some cb, events := [] },
         pre.map (fun m => Emit.message (some cb) (parse m)) ++ [Emit.close]) := by
    rw [show initialReader
        = { state := RState.initial, callback := none, events := [] } from rfl,
      runActions_append, hbuf]
    simp [runActions, stepAction, hlisten]
  exact ⟨by rw [hfull], by rw [hfull]⟩

/-- C10 witness: buffered `"x"` then buffered `""`; the replay delivers
`"x"` and then fires close, ending closed. -/
theorem c10_empty_message_closes_witness :
    (runActions strId initialReader
        ((["x"] ++ [""]).map msgAct ++ [Action.listenTo 4])).2
      = ["x"].map (fun m => Emit.message (some 4) (strId m)) ++ [Emit.close]
    ∧ (runActions strId initialReader
        ((["x"] ++ [""]).map msgAct ++ [Action.listenTo 4])).1.state
      = RState.closed :=
  c10_empty_message_closes strId ["x"] 4 (by decide)

end SocketMessaging
